import Mathlib

/-!
# BlackBox: level registry, logging macros and assertion macro

A shallow embedding of `blackbox.h`.

* `uint32_t log_levels_enabled` is a natural number below `2 ^ 32`; every
  operation that stores into it reduces modulo `2 ^ 32`.
* A `log_level` argument is a natural number; it is converted to `uint32_t`
  (reduced modulo `2 ^ 32`) where the C code combines it with the mask.
* The macros `LOG` and `ASSERT` are state transformers on a `World` that
  records the global mask, the variables of the host program and the trace
  of calls made to the functions that `blackbox.h` only declares. `LOG`
  evaluates its level expression once for the gate and once more for the
  emitter call, as the macro text does.
-/

namespace BlackBox

/-! ## Types (blackbox.h, lines 16-50) -/

/-- The modulus of `uint32_t`. -/
def UINT32_MOD : Nat := 2 ^ 32

/-- Line 26: `LOG_LEVEL_NONE = 0`. -/
def LOG_LEVEL_NONE : Nat := 0
/-- Line 27: `LOG_LEVEL_FATAL = 1 << 0`. -/
def LOG_LEVEL_FATAL : Nat := 1 <<< 0
/-- Line 28: `LOG_LEVEL_ERROR = 1 << 1`. -/
def LOG_LEVEL_ERROR : Nat := 1 <<< 1
/-- Line 29: `LOG_LEVEL_WARN = 1 << 2`. -/
def LOG_LEVEL_WARN : Nat := 1 <<< 2
/-- Line 30: `LOG_LEVEL_INFO = 1 << 3`. -/
def LOG_LEVEL_INFO : Nat := 1 <<< 3
/-- Line 31: `LOG_LEVEL_DEBUG = 1 << 4`. -/
def LOG_LEVEL_DEBUG : Nat := 1 <<< 4
/-- Line 32: `LOG_LEVEL_TRACE = 1 << 5`. -/
def LOG_LEVEL_TRACE : Nat := 1 <<< 5
/-- Lines 34-39: `LOG_LEVEL_ALL` is the OR of the six severities. -/
def LOG_LEVEL_ALL : Nat :=
  LOG_LEVEL_FATAL ||| LOG_LEVEL_ERROR ||| LOG_LEVEL_WARN |||
  LOG_LEVEL_INFO ||| LOG_LEVEL_DEBUG ||| LOG_LEVEL_TRACE

/-- The six named severities, in declaration order. -/
def severities : List Nat :=
  [LOG_LEVEL_FATAL, LOG_LEVEL_ERROR, LOG_LEVEL_WARN,
   LOG_LEVEL_INFO, LOG_LEVEL_DEBUG, LOG_LEVEL_TRACE]

/-- The OR-combination of a list of level constants (`a | b | ...`);
the empty combination is `LOG_LEVEL_NONE`. -/
def orCombination (ls : List Nat) : Nat :=
  ls.foldr (fun a b => a ||| b) LOG_LEVEL_NONE

/-! ## Runtime log level control (blackbox.h, lines 110-120) -/

/-- The operand `~level` as it reaches the `uint32_t` mask. -/
def complement32 (level : Nat) : Nat :=
  UINT32_MOD - 1 - level % UINT32_MOD

/-- Lines 110-112: `log_levels_enabled |= level;`
returns the new value of the global. -/
def log_enable_level (log_levels_enabled level : Nat) : Nat :=
  (log_levels_enabled ||| level) % UINT32_MOD

/-- Lines 114-116: `log_levels_enabled &= ~level;`
returns the new value of the global. -/
def log_disable_level (log_levels_enabled level : Nat) : Nat :=
  (log_levels_enabled &&& complement32 level) % UINT32_MOD

/-- Lines 118-120: `return (log_levels_enabled & level) != 0;`. -/
def log_level_is_enabled (log_levels_enabled level : Nat) : Bool :=
  (log_levels_enabled &&& level) % UINT32_MOD != 0

/-! ## The functions blackbox.h declares and its macros call (lines 124, 140) -/

/-- A call, with its evaluated arguments, to a function that the macros of
blackbox.h invoke and that the header only declares; `α` is the type of an
evaluated variadic argument pack. -/
inductive Call (α : Type) where
  | log_output_ext (level : Nat) (file : String) (line : Nat) (func : String)
      (msg : String) (args : α) : Call α
  | report_assertion_failure (expr_str : String) (file : String) (line : Nat)
      (fmt_args : α) : Call α
  | abort : Call α

/-- Whether a call is to `report_assertion_failure`. -/
def Call.isReport {α : Type} : Call α → Bool
  | .report_assertion_failure _ _ _ _ => true
  | _ => false

/-- Whether a call is to `abort`. -/
def Call.isAbort {α : Type} : Call α → Bool
  | .abort => true
  | _ => false

/-- The state a macro expansion runs in: the global mask (line 63), the
variables of the host program (`σ`, read and written by argument
expressions), and the calls made so far, oldest first. -/
structure World (σ α : Type) where
  log_levels_enabled : Nat
  vars : σ
  calls : List (Call α)

/-- The process has been terminated: `abort` has been called. -/
def World.terminated {σ α : Type} (w : World σ α) : Bool :=
  w.calls.any Call.isAbort

/-- Modelled from the spec: the body of `log_output_ext` is missing (line 124
declares it only). The emitter is entered with the arguments of the call and
returns to its caller; the model records the invocation. -/
def log_output_ext {σ α : Type} (level : Nat) (file : String) (line : Nat)
    (func : String) (msg : String) (args : α) (w : World σ α) : World σ α :=
  { w with calls := w.calls ++ [Call.log_output_ext level file line func msg args] }

/-- Modelled from the spec: the body of `report_assertion_failure` is missing
(line 140 declares it only). The reporter is entered with the arguments of the
call and returns to its caller, who is responsible for terminating the
process; the model records the invocation. -/
def report_assertion_failure {σ α : Type} (expr_str : String) (file : String)
    (line : Nat) (fmt_args : α) (w : World σ α) : World σ α :=
  { w with calls := w.calls ++ [Call.report_assertion_failure expr_str file line fmt_args] }

/-- The C library function `abort()`: the process ends here. -/
def abort {σ α : Type} (w : World σ α) : World σ α :=
  { w with calls := w.calls ++ [Call.abort] }

/-! ## Macros (blackbox.h, lines 127-148) -/

/-- What an expression of the host program can read and write: the global
mask (line 63, visible to every translation unit that includes the header)
and the variables of the host program. -/
structure Store (σ : Type) where
  log_levels_enabled : Nat
  vars : σ

/-- The store of a world. -/
def World.store {σ α : Type} (w : World σ α) : Store σ :=
  ⟨w.log_levels_enabled, w.vars⟩

/-- The world after an expression has left the store `st`. -/
def World.setStore {σ α : Type} (w : World σ α) (st : Store σ) : World σ α :=
  ⟨st.log_levels_enabled, st.vars, w.calls⟩

/-- Lines 127-130:
`do { if (log_level_is_enabled(level)) log_output_ext(level, __FILE__, __LINE__, __func__, msg, ##__VA_ARGS__); } while(0)`.
The macro substitutes the text of `level` twice: the expression is evaluated
for the gate and, when the gate passes, again as the first argument of
`log_output_ext`. `level` and `args` are expressions (value and store after
their side effects); `log_level_is_enabled` reads the mask after its argument
has been evaluated. C leaves the order in which the arguments of
`log_output_ext` are evaluated open: `levelBeforeArgs` is that order. `msg` is
a string literal, and `file`, `line`, `func` stand for `__FILE__`, `__LINE__`,
`__func__`. -/
def LOG {σ α : Type} (levelBeforeArgs : Bool) (level : Store σ → Nat × Store σ)
    (file : String) (line : Nat) (func : String) (msg : String)
    (args : Store σ → α × Store σ) (w : World σ α) : World σ α :=
  let g := level w.store
  if log_level_is_enabled g.2.log_levels_enabled g.1 then
    if levelBeforeArgs then
      let l := level g.2
      let a := args l.2
      log_output_ext l.1 file line func msg a.1 (w.setStore a.2)
    else
      let a := args g.2
      let l := level a.2
      log_output_ext l.1 file line func msg a.1 (w.setStore l.2)
  else
    w.setStore g.2

/-- Lines 142-148:
`do { if (!(expr)) { report_assertion_failure(#expr, __FILE__, __LINE__, __VA_ARGS__); abort(); } } while (0)`.
`expr` evaluates the condition in the host variables (value and variables
after its side effects), `expr_str` is its text `#expr`, and `args` evaluates
the format and message arguments `__VA_ARGS__`. -/
def ASSERT {σ α : Type} (expr : σ → Bool × σ) (expr_str : String) (file : String)
    (line : Nat) (args : σ → α × σ) (w : World σ α) : World σ α :=
  let c := expr w.vars
  if !c.1 then
    let r := args c.2
    abort (report_assertion_failure expr_str file line r.1 { w with vars := r.2 })
  else
    { w with vars := c.2 }

/-- The host-variable effect of the argument expression `++counter`. -/
def incrementCounter (counter : Nat) : Nat × Nat :=
  (counter + 1, counter + 1)

/-- A world for examples: every level disabled, a counter at 7, no call made
yet. -/
def silentWorld : World Nat Nat :=
  ⟨LOG_LEVEL_NONE, 7, []⟩

/-- The condition `counter > 100`, which has no side effect. -/
def counterAbove100 (counter : Nat) : Bool × Nat :=
  (decide (counter > 100), counter)

/-- The condition `counter < 100`, which has no side effect. -/
def counterBelow100 (counter : Nat) : Bool × Nat :=
  (decide (counter < 100), counter)

/-! ## Sequences of level-control calls -/

/-- One call to a level-control function of lines 110-120. -/
inductive LevelCall where
  | enable (level : Nat) : LevelCall
  | disable (level : Nat) : LevelCall
  | is_enabled (level : Nat) : LevelCall

/-- The level argument of a call. -/
def LevelCall.level : LevelCall → Nat
  | .enable l => l
  | .disable l => l
  | .is_enabled l => l

/-- The value of the global `log_levels_enabled` after one call:
`log_enable_level` and `log_disable_level` assign to it, the body of
`log_level_is_enabled` (line 119) only reads it. -/
def LevelCall.run (log_levels_enabled : Nat) : LevelCall → Nat
  | .enable l => log_enable_level log_levels_enabled l
  | .disable l => log_disable_level log_levels_enabled l
  | .is_enabled _ => log_levels_enabled

/-- The value of the global after a sequence of calls, first call first. -/
def runCalls (log_levels_enabled : Nat) (cs : List LevelCall) : Nat :=
  cs.foldl LevelCall.run log_levels_enabled

/-- The level constants of the enum `log_level` (lines 25-40). -/
def levelConstants : List Nat :=
  LOG_LEVEL_NONE :: LOG_LEVEL_ALL :: severities

/-- The mask has no bit set outside `LOG_LEVEL_ALL`. -/
def maskWithinAll (log_levels_enabled : Nat) : Bool :=
  log_levels_enabled ||| LOG_LEVEL_ALL == LOG_LEVEL_ALL

/-- A level argument written with the constants of the enum: the OR-combination
of a list of them (one constant alone is the list of length one). -/
def IsLevelArg (level : Nat) : Prop :=
  ∃ ls : List Nat, (∀ l ∈ ls, l ∈ levelConstants) ∧ orCombination ls = level

/-! ## Logger initialisation (declared at line 96) -/

/-- Line 16: `typedef enum { NO_LOG = 0, LOG = 1 } log_mode;`. -/
inductive log_mode where
  | NO_LOG : log_mode
  | LOG : log_mode
  deriving DecidableEq, Repr

/-- Line 17: `typedef enum { NO_COLORS = 0, LOG_COLORS = 1 } color_mode;`. -/
inductive color_mode where
  | NO_COLORS : color_mode
  | LOG_COLORS : color_mode
  deriving DecidableEq, Repr

/-- Line 18: `typedef enum { STDERR_TO_TERMINAL = 0, STDERR_TO_LOG = 1 } stderr_mode;`. -/
inductive stderr_mode where
  | STDERR_TO_TERMINAL : stderr_mode
  | STDERR_TO_LOG : stderr_mode
  deriving DecidableEq, Repr

/-- Lines 45-50: the enum `log_type`. -/
inductive log_type where
  | LOG_ERROR : log_type
  | LOG_FILE : log_type
  | LOG_STDOUT : log_type
  | LOG_ALREADY_INIT : log_type
  deriving DecidableEq, Repr

/-- The integer value C gives each enumerator of `log_type` (no explicit
initialisers: 0, 1, 2, 3 in declaration order). -/
def log_type.toNat : log_type → Nat
  | .LOG_ERROR => 0
  | .LOG_FILE => 1
  | .LOG_STDOUT => 2
  | .LOG_ALREADY_INIT => 3

/-- The sink kind of the Logger State (spec, section 3). -/
inductive SinkKind where
  | none : SinkKind
  | stdout : SinkKind
  | file : SinkKind
  deriving DecidableEq, Repr

/-- The states of the Destination Manager (spec, section 4.2):
Uninitialized, Initialized(stdout), Initialized(file), Error. -/
inductive LoggerState where
  | Uninitialized : LoggerState
  | Initialized (sink : SinkKind) : LoggerState
  | Error : LoggerState
  deriving DecidableEq, Repr

/-- The sink kind held by a Logger State. -/
def LoggerState.sinkKind : LoggerState → SinkKind
  | .Initialized k => k
  | _ => SinkKind.none

/-- Modelled from the spec: the body of `init_log` is missing (line 96 declares
it only). Section 4.2: from Uninitialized only, with logging to a file
disabled the sink is stdout and the outcome "stdout sink selected"; with it
enabled the log file is opened (`fopen_ok` is whether that succeeds), giving
Initialized(file) and "file sink selected" on success, Error and an
initialisation error on failure. Called in any other state there is no state
change and the outcome is "already initialized": section 4.2 says so for
Initialized(stdout) and Initialized(file); for Error the spec names no
transition, and the model follows section 3 ("a second init call is rejected,
not silently reapplied") and the restriction of the sink-resolving
transitions to Uninitialized. The colour and stderr arguments do not enter
the state machine of section 4.2. -/
def init_log (fopen_ok : Bool) (enable_log : log_mode) (enable_colors : color_mode)
    (stderr_behavior : stderr_mode) (s : LoggerState) : log_type × LoggerState :=
  match s with
  | .Uninitialized =>
    match enable_log with
    | .NO_LOG => (log_type.LOG_STDOUT, LoggerState.Initialized SinkKind.stdout)
    | .LOG =>
      if fopen_ok then (log_type.LOG_FILE, LoggerState.Initialized SinkKind.file)
      else (log_type.LOG_ERROR, LoggerState.Error)
  | s => (log_type.LOG_ALREADY_INIT, s)

/-! ## Bit-level facts about the three operations -/

theorem testBit_complement32 (level i : Nat) :
    (complement32 level).testBit i = (decide (i < 32) && !level.testBit i) := by
  have hlt : level % 2 ^ 32 < 2 ^ 32 := Nat.mod_lt _ (by decide)
  have h : complement32 level = 2 ^ 32 - (level % 2 ^ 32 + 1) := by
    unfold complement32 UINT32_MOD
    omega
  rw [h, Nat.testBit_two_pow_sub_succ hlt, Nat.testBit_mod_two_pow]
  by_cases hi : i < 32 <;> simp [hi]

theorem testBit_log_enable_level (m level i : Nat) :
    (log_enable_level m level).testBit i
      = (decide (i < 32) && (m.testBit i || level.testBit i)) := by
  unfold log_enable_level UINT32_MOD
  rw [Nat.testBit_mod_two_pow, Nat.testBit_or]

theorem testBit_log_disable_level (m level i : Nat) :
    (log_disable_level m level).testBit i
      = (decide (i < 32) && (m.testBit i && !level.testBit i)) := by
  unfold log_disable_level UINT32_MOD
  rw [Nat.testBit_mod_two_pow, Nat.testBit_and, testBit_complement32]
  by_cases hi : i < 32 <;> simp [hi]

theorem log_level_is_enabled_iff (m level : Nat) :
    log_level_is_enabled m level = true
      ↔ ∃ i, i < 32 ∧ m.testBit i = true ∧ level.testBit i = true := by
  unfold log_level_is_enabled UINT32_MOD
  constructor
  · intro h
    have hne : (m &&& level) % 2 ^ 32 ≠ 0 := by simpa using h
    obtain ⟨i, hi⟩ := Nat.ne_zero_implies_bit_true hne
    rw [Nat.testBit_mod_two_pow, Nat.testBit_and] at hi
    simp only [Bool.and_eq_true, decide_eq_true_eq] at hi
    exact ⟨i, hi.1, hi.2.1, hi.2.2⟩
  · rintro ⟨i, hi, hm, hl⟩
    have hb : ((m &&& level) % 2 ^ 32).testBit i = true := by
      rw [Nat.testBit_mod_two_pow, Nat.testBit_and]
      simp [hi, hm, hl]
    have hne : (m &&& level) % 2 ^ 32 ≠ 0 := by
      intro h0
      rw [h0] at hb
      simp at hb
    simpa using hne

theorem log_level_is_enabled_eq_false_iff (m level : Nat) :
    log_level_is_enabled m level = false
      ↔ ∀ i, i < 32 → m.testBit i = true → level.testBit i = false := by
  rw [← Bool.not_eq_true, log_level_is_enabled_iff]
  constructor
  · intro h i hi hm
    by_contra hl
    exact h ⟨i, hi, hm, by simpa using hl⟩
  · rintro h ⟨i, hi, hm, hl⟩
    rw [h i hi hm] at hl
    exact Bool.noConfusion hl

theorem testBit_of_lt_uint32 {m i : Nat} (hm : m < UINT32_MOD)
    (hb : m.testBit i = true) : i < 32 := by
  by_contra hi
  have hle : 2 ^ 32 ≤ 2 ^ i := Nat.pow_le_pow_right (by decide) (by omega)
  have hlt : m < 2 ^ i := Nat.lt_of_lt_of_le hm hle
  rw [Nat.testBit_lt_two_pow hlt] at hb
  exact Bool.noConfusion hb

/-- A level with a bit among the low 32 is enabled right after it is enabled. -/
theorem enabled_after_enable (m level i : Nat) (hi : i < 32)
    (hb : level.testBit i = true) :
    log_level_is_enabled (log_enable_level m level) level = true := by
  rw [log_level_is_enabled_iff]
  refine ⟨i, hi, ?_, hb⟩
  rw [testBit_log_enable_level]
  simp [hi, hb]

/-- Every level is reported disabled right after it is disabled. -/
theorem disabled_after_disable (m level : Nat) :
    log_level_is_enabled (log_disable_level m level) level = false := by
  rw [log_level_is_enabled_eq_false_iff]
  intro i _ hm
  rw [testBit_log_disable_level] at hm
  simp only [Bool.and_eq_true, Bool.not_eq_true_eq_eq_false] at hm
  simpa using hm.2.2

theorem mem_severities_iff (S : Nat) :
    S ∈ severities ↔ S = 2 ^ 0 ∨ S = 2 ^ 1 ∨ S = 2 ^ 2 ∨ S = 2 ^ 3 ∨ S = 2 ^ 4 ∨ S = 2 ^ 5 := by
  simp [severities, LOG_LEVEL_FATAL, LOG_LEVEL_ERROR, LOG_LEVEL_WARN, LOG_LEVEL_INFO,
    LOG_LEVEL_DEBUG, LOG_LEVEL_TRACE]

/-- A named severity is a single bit among the low six. -/
theorem severity_eq_two_pow {S : Nat} (hS : S ∈ severities) :
    ∃ k, k < 6 ∧ S = 2 ^ k := by
  rw [mem_severities_iff] at hS
  rcases hS with h | h | h | h | h | h
  · exact ⟨0, by decide, h⟩
  · exact ⟨1, by decide, h⟩
  · exact ⟨2, by decide, h⟩
  · exact ⟨3, by decide, h⟩
  · exact ⟨4, by decide, h⟩
  · exact ⟨5, by decide, h⟩

theorem testBit_LOG_LEVEL_ALL (i : Nat) :
    LOG_LEVEL_ALL.testBit i = decide (i < 6) := by
  have h : LOG_LEVEL_ALL = 2 ^ 6 - (0 + 1) := by decide
  rw [h, Nat.testBit_two_pow_sub_succ (by decide)]
  simp

/-- The bits of an OR-combination are the bits of its members. -/
theorem testBit_orCombination (ls : List Nat) (i : Nat) :
    (orCombination ls).testBit i = ls.any (fun l => l.testBit i) := by
  induction ls with
  | nil => simp [orCombination, LOG_LEVEL_NONE]
  | cons a t ih =>
    have h : orCombination (a :: t) = a ||| orCombination t := rfl
    rw [h, Nat.testBit_or, ih, List.any_cons]

/-- Enabling or disabling `S` does not change the answer for a level `T` that
shares no bit with `S`. -/
theorem is_enabled_frame (m S T : Nat)
    (hd : ∀ i, S.testBit i = true → T.testBit i = false) :
    log_level_is_enabled (log_enable_level m S) T = log_level_is_enabled m T ∧
    log_level_is_enabled (log_disable_level m S) T = log_level_is_enabled m T := by
  have key : ∀ i, T.testBit i = true → S.testBit i = false := by
    intro i hT
    by_contra hS
    have hS1 : S.testBit i = true := by simpa using hS
    rw [hd i hS1] at hT
    exact Bool.noConfusion hT
  constructor
  · rw [Bool.eq_iff_iff, log_level_is_enabled_iff, log_level_is_enabled_iff]
    constructor
    · rintro ⟨i, hi, hm, hT⟩
      rw [testBit_log_enable_level, key i hT] at hm
      exact ⟨i, hi, by simpa [hi] using hm, hT⟩
    · rintro ⟨i, hi, hm, hT⟩
      exact ⟨i, hi, by rw [testBit_log_enable_level]; simp [hi, hm], hT⟩
  · rw [Bool.eq_iff_iff, log_level_is_enabled_iff, log_level_is_enabled_iff]
    constructor
    · rintro ⟨i, hi, hm, hT⟩
      rw [testBit_log_disable_level, key i hT] at hm
      exact ⟨i, hi, by simpa [hi] using hm, hT⟩
    · rintro ⟨i, hi, hm, hT⟩
      exact ⟨i, hi, by rw [testBit_log_disable_level, key i hT]; simp [hi, hm], hT⟩

/-- Two distinct named severities share no bit. -/
theorem severities_disjoint {S T : Nat} (hS : S ∈ severities) (hT : T ∈ severities)
    (hne : S ≠ T) (i : Nat) (hb : S.testBit i = true) : T.testBit i = false := by
  obtain ⟨j, _, rfl⟩ := severity_eq_two_pow hS
  obtain ⟨k, _, rfl⟩ := severity_eq_two_pow hT
  rw [Nat.testBit_two_pow] at hb ⊢
  have hji : j = i := by simpa using hb
  have hjk : j ≠ k := fun h => hne (by rw [h])
  simp only [decide_eq_false_iff_not]
  omega

/-- A named severity is enabled right after it is enabled. -/
theorem severity_enabled_after_enable (m : Nat) {S : Nat} (hS : S ∈ severities) :
    log_level_is_enabled (log_enable_level m S) S = true := by
  obtain ⟨k, hk, rfl⟩ := severity_eq_two_pow hS
  exact enabled_after_enable _ _ k (by omega) Nat.testBit_two_pow_self

theorem maskWithinAll_iff (m : Nat) :
    maskWithinAll m = true ↔ ∀ i, m.testBit i = true → i < 6 := by
  unfold maskWithinAll
  rw [beq_iff_eq]
  constructor
  · intro h i hb
    have hi : (m ||| LOG_LEVEL_ALL).testBit i = true := by
      rw [Nat.testBit_or, hb]; rfl
    rw [h, testBit_LOG_LEVEL_ALL] at hi
    simpa using hi
  · intro h
    apply Nat.eq_of_testBit_eq
    intro i
    rw [Nat.testBit_or, testBit_LOG_LEVEL_ALL]
    by_cases hb : m.testBit i = true
    · have := h i hb
      simp [hb, this]
    · have hb0 : m.testBit i = false := by simpa using hb
      simp [hb0]

/-- Every bit of a level argument written with the enum constants is one of
the six severity bits. -/
theorem IsLevelArg.testBit_lt {level : Nat} (h : IsLevelArg level) (i : Nat)
    (hb : level.testBit i = true) : i < 6 := by
  obtain ⟨ls, hls, rfl⟩ := h
  rw [testBit_orCombination, List.any_eq_true] at hb
  obtain ⟨l, hl, hli⟩ := hb
  have hmem := hls l hl
  simp only [levelConstants, List.mem_cons] at hmem
  rcases hmem with h0 | hall | hsev
  · rw [h0] at hli
    simp [LOG_LEVEL_NONE] at hli
  · rw [hall, testBit_LOG_LEVEL_ALL] at hli
    simpa using hli
  · obtain ⟨k, hk, rfl⟩ := severity_eq_two_pow hsev
    rw [Nat.testBit_two_pow] at hli
    have : k = i := by simpa using hli
    omega

/-- One level-control call with a well-formed argument keeps the mask within
`LOG_LEVEL_ALL`. -/
theorem run_within_all {m : Nat} {c : LevelCall} (hm : maskWithinAll m = true)
    (hc : IsLevelArg c.level) : maskWithinAll (LevelCall.run m c) = true := by
  rw [maskWithinAll_iff] at hm ⊢
  intro i hb
  cases c with
  | enable l =>
    simp only [LevelCall.run] at hb
    rw [testBit_log_enable_level] at hb
    simp only [Bool.and_eq_true, Bool.or_eq_true, decide_eq_true_eq] at hb
    rcases hb.2 with h | h
    · exact hm i h
    · exact hc.testBit_lt i h
  | disable l =>
    simp only [LevelCall.run] at hb
    rw [testBit_log_disable_level] at hb
    simp only [Bool.and_eq_true] at hb
    exact hm i hb.2.1
  | is_enabled l => exact hm i hb

/-! ## The claims -/

/-- C1: for every value of the mask and every named severity S, after
`log_enable_level(S)` the call `log_level_is_enabled(S)` returns true. -/
theorem C1_enable_then_is_enabled (log_levels_enabled S : Nat)
    (hS : S ∈ severities) :
    log_level_is_enabled (log_enable_level log_levels_enabled S) S = true :=
  severity_enabled_after_enable log_levels_enabled hS

/-- Witness of C1: mask zero, severity `LOG_LEVEL_TRACE`. -/
theorem C1_enable_then_is_enabled_witness :
    LOG_LEVEL_TRACE ∈ severities ∧
    log_level_is_enabled (log_enable_level 0 LOG_LEVEL_TRACE) LOG_LEVEL_TRACE = true :=
  ⟨by decide, C1_enable_then_is_enabled 0 LOG_LEVEL_TRACE (by decide)⟩

/-- C2: for every value of the mask and every level argument built from the
named severities (each severity of the list `ls` on its own, and the
OR-combination of the whole list), after `log_disable_level` of that argument
`log_level_is_enabled` of the same argument returns false. -/
theorem C2_disable_then_not_enabled (log_levels_enabled : Nat) (ls : List Nat)
    (_hls : ∀ S ∈ ls, S ∈ severities) :
    (∀ S ∈ ls,
      log_level_is_enabled (log_disable_level log_levels_enabled S) S = false) ∧
    log_level_is_enabled
      (log_disable_level log_levels_enabled (orCombination ls)) (orCombination ls)
      = false :=
  ⟨fun S _ => disabled_after_disable log_levels_enabled S,
   disabled_after_disable log_levels_enabled (orCombination ls)⟩

/-- Witness of C2: every bit of the mask set, argument
`LOG_LEVEL_WARN | LOG_LEVEL_DEBUG`. -/
theorem C2_disable_then_not_enabled_witness :
    (∀ S ∈ [LOG_LEVEL_WARN, LOG_LEVEL_DEBUG], S ∈ severities) ∧
    (∀ S ∈ [LOG_LEVEL_WARN, LOG_LEVEL_DEBUG],
      log_level_is_enabled (log_disable_level 4294967295 S) S = false) ∧
    log_level_is_enabled
      (log_disable_level 4294967295 (orCombination [LOG_LEVEL_WARN, LOG_LEVEL_DEBUG]))
      (orCombination [LOG_LEVEL_WARN, LOG_LEVEL_DEBUG]) = false :=
  ⟨by decide,
   C2_disable_then_not_enabled 4294967295 [LOG_LEVEL_WARN, LOG_LEVEL_DEBUG] (by decide)⟩

/-- C3: toggling is independent per bit. For every 32-bit mask and two distinct
named severities S and T, `log_level_is_enabled(T)` answers the same before and
after `log_enable_level(S)` and before and after `log_disable_level(S)`; and for
every level argument, both operations leave each bit of the mask that is not a
bit of the argument unchanged. -/
theorem C3_toggle_independent (log_levels_enabled S T : Nat)
    (hm : log_levels_enabled < UINT32_MOD)
    (hS : S ∈ severities) (hT : T ∈ severities) (hne : S ≠ T) :
    log_level_is_enabled (log_enable_level log_levels_enabled S) T
      = log_level_is_enabled log_levels_enabled T ∧
    log_level_is_enabled (log_disable_level log_levels_enabled S) T
      = log_level_is_enabled log_levels_enabled T ∧
    (∀ level i : Nat, level.testBit i = false →
      (log_enable_level log_levels_enabled level).testBit i
        = log_levels_enabled.testBit i ∧
      (log_disable_level log_levels_enabled level).testBit i
        = log_levels_enabled.testBit i) := by
  obtain ⟨h1, h2⟩ :=
    is_enabled_frame log_levels_enabled S T (severities_disjoint hS hT hne)
  refine ⟨h1, h2, ?_⟩
  intro level i hl
  rw [testBit_log_enable_level, testBit_log_disable_level, hl]
  by_cases hi : i < 32
  · simp [hi]
  · have hb : log_levels_enabled.testBit i = false := by
      by_contra hb
      exact hi (testBit_of_lt_uint32 hm (by simpa using hb))
    simp [hi, hb]

/-- Witness of C3: mask `LOG_LEVEL_DEBUG`, toggling `LOG_LEVEL_TRACE`, observing
`LOG_LEVEL_DEBUG`. -/
theorem C3_toggle_independent_witness :
    LOG_LEVEL_DEBUG < UINT32_MOD ∧ LOG_LEVEL_TRACE ∈ severities ∧
    LOG_LEVEL_DEBUG ∈ severities ∧ LOG_LEVEL_TRACE ≠ LOG_LEVEL_DEBUG ∧
    log_level_is_enabled (log_enable_level LOG_LEVEL_DEBUG LOG_LEVEL_TRACE) LOG_LEVEL_DEBUG
      = log_level_is_enabled LOG_LEVEL_DEBUG LOG_LEVEL_DEBUG ∧
    log_level_is_enabled (log_disable_level LOG_LEVEL_DEBUG LOG_LEVEL_TRACE) LOG_LEVEL_DEBUG
      = log_level_is_enabled LOG_LEVEL_DEBUG LOG_LEVEL_DEBUG ∧
    (∀ level i : Nat, level.testBit i = false →
      (log_enable_level LOG_LEVEL_DEBUG level).testBit i = LOG_LEVEL_DEBUG.testBit i ∧
      (log_disable_level LOG_LEVEL_DEBUG level).testBit i = LOG_LEVEL_DEBUG.testBit i) :=
  ⟨by decide, by decide, by decide, by decide,
   C3_toggle_independent LOG_LEVEL_DEBUG LOG_LEVEL_TRACE LOG_LEVEL_DEBUG
     (by decide) (by decide) (by decide) (by decide)⟩

/-- C4: the six severity constants are the powers of two `2 ^ 0` to `2 ^ 5`,
hence single bits and pairwise distinct; `LOG_LEVEL_NONE` is zero; and
`LOG_LEVEL_ALL` is the OR of the six severities, with exactly the bits 0 to 5
(value 63). -/
theorem C4_level_constants :
    LOG_LEVEL_FATAL = 2 ^ 0 ∧ LOG_LEVEL_ERROR = 2 ^ 1 ∧ LOG_LEVEL_WARN = 2 ^ 2 ∧
    LOG_LEVEL_INFO = 2 ^ 3 ∧ LOG_LEVEL_DEBUG = 2 ^ 4 ∧ LOG_LEVEL_TRACE = 2 ^ 5 ∧
    severities.Nodup ∧
    LOG_LEVEL_NONE = 0 ∧
    LOG_LEVEL_ALL = orCombination severities ∧
    LOG_LEVEL_ALL = 63 := by
  decide

/-- C8: the level-control operations accept `LOG_LEVEL_ALL`. For every mask and
each named severity S, after `log_enable_level(LOG_LEVEL_ALL)` the call
`log_level_is_enabled(S)` is true, and after `log_disable_level(LOG_LEVEL_ALL)`
it is false. -/
theorem C8_enable_disable_all (log_levels_enabled S : Nat) (hS : S ∈ severities) :
    log_level_is_enabled (log_enable_level log_levels_enabled LOG_LEVEL_ALL) S = true ∧
    log_level_is_enabled (log_disable_level log_levels_enabled LOG_LEVEL_ALL) S = false := by
  obtain ⟨k, hk, rfl⟩ := severity_eq_two_pow hS
  constructor
  · rw [log_level_is_enabled_iff]
    refine ⟨k, by omega, ?_, Nat.testBit_two_pow_self⟩
    rw [testBit_log_enable_level, testBit_LOG_LEVEL_ALL]
    have hk32 : k < 32 := by omega
    simp [hk, hk32]
  · rw [log_level_is_enabled_eq_false_iff]
    intro i _ hb
    rw [testBit_log_disable_level, testBit_LOG_LEVEL_ALL] at hb
    simp only [Bool.and_eq_true, Bool.not_eq_true_eq_eq_false, decide_eq_true_eq,
      decide_eq_false_iff_not] at hb
    rw [Nat.testBit_two_pow]
    simp only [decide_eq_false_iff_not]
    omega

/-- Witness of C8: mask `LOG_LEVEL_ERROR`, severity `LOG_LEVEL_INFO`. -/
theorem C8_enable_disable_all_witness :
    LOG_LEVEL_INFO ∈ severities ∧
    log_level_is_enabled (log_enable_level LOG_LEVEL_ERROR LOG_LEVEL_ALL) LOG_LEVEL_INFO
      = true ∧
    log_level_is_enabled (log_disable_level LOG_LEVEL_ERROR LOG_LEVEL_ALL) LOG_LEVEL_INFO
      = false :=
  ⟨by decide, C8_enable_disable_all LOG_LEVEL_ERROR LOG_LEVEL_INFO (by decide)⟩

/-- C9: for every 32-bit mask and every level argument L,
`log_level_is_enabled(L)` is true exactly when some bit of L is set in the mask
(any-of semantics). So `log_level_is_enabled(LOG_LEVEL_NONE)` is false for every
mask, also directly after `log_enable_level(LOG_LEVEL_NONE)`; a level enabled in
the mask makes every OR-combination containing it enabled; and with only the
named severity A enabled, `log_level_is_enabled(A | B)` is true. -/
theorem C9_any_of_semantics (log_levels_enabled L A B : Nat)
    (hm : log_levels_enabled < UINT32_MOD) :
    (log_level_is_enabled log_levels_enabled L = true
      ↔ ∃ i, log_levels_enabled.testBit i = true ∧ L.testBit i = true) ∧
    log_level_is_enabled log_levels_enabled LOG_LEVEL_NONE = false ∧
    log_level_is_enabled (log_enable_level log_levels_enabled LOG_LEVEL_NONE)
      LOG_LEVEL_NONE = false ∧
    (log_level_is_enabled log_levels_enabled A = true →
      log_level_is_enabled log_levels_enabled (A ||| B) = true) ∧
    (A ∈ severities →
      log_level_is_enabled (log_enable_level LOG_LEVEL_NONE A) (A ||| B) = true) := by
  have hnone : ∀ m, log_level_is_enabled m LOG_LEVEL_NONE = false := by
    intro m
    rw [log_level_is_enabled_eq_false_iff]
    intro i _ _
    simp [LOG_LEVEL_NONE]
  have hor : ∀ m, log_level_is_enabled m A = true →
      log_level_is_enabled m (A ||| B) = true := by
    intro m h
    rw [log_level_is_enabled_iff] at h ⊢
    obtain ⟨i, hi, hmi, hA⟩ := h
    exact ⟨i, hi, hmi, by rw [Nat.testBit_or, hA]; rfl⟩
  refine ⟨?_, hnone _, hnone _, hor _, ?_⟩
  · rw [log_level_is_enabled_iff]
    constructor
    · rintro ⟨i, _, h1, h2⟩
      exact ⟨i, h1, h2⟩
    · rintro ⟨i, h1, h2⟩
      exact ⟨i, testBit_of_lt_uint32 hm h1, h1, h2⟩
  · intro hA
    exact hor _ (severity_enabled_after_enable LOG_LEVEL_NONE hA)

/-- Witness of C9: mask `LOG_LEVEL_FATAL`, argument
`LOG_LEVEL_FATAL | LOG_LEVEL_ERROR`. -/
theorem C9_any_of_semantics_witness :
    LOG_LEVEL_FATAL < UINT32_MOD ∧
    (log_level_is_enabled LOG_LEVEL_FATAL LOG_LEVEL_ERROR = true
      ↔ ∃ i, LOG_LEVEL_FATAL.testBit i = true ∧ LOG_LEVEL_ERROR.testBit i = true) ∧
    log_level_is_enabled LOG_LEVEL_FATAL LOG_LEVEL_NONE = false ∧
    log_level_is_enabled (log_enable_level LOG_LEVEL_FATAL LOG_LEVEL_NONE)
      LOG_LEVEL_NONE = false ∧
    (log_level_is_enabled LOG_LEVEL_FATAL LOG_LEVEL_FATAL = true →
      log_level_is_enabled LOG_LEVEL_FATAL (LOG_LEVEL_FATAL ||| LOG_LEVEL_ERROR) = true) ∧
    (LOG_LEVEL_FATAL ∈ severities →
      log_level_is_enabled (log_enable_level LOG_LEVEL_NONE LOG_LEVEL_FATAL)
        (LOG_LEVEL_FATAL ||| LOG_LEVEL_ERROR) = true) :=
  ⟨by decide,
   C9_any_of_semantics LOG_LEVEL_FATAL LOG_LEVEL_ERROR LOG_LEVEL_FATAL LOG_LEVEL_ERROR
     (by decide)⟩

/-- C10: the mask stays within the severity bits. If the mask has no bit outside
`LOG_LEVEL_ALL`, it has none after any finite sequence of level-control calls
whose arguments are OR-combinations of `LOG_LEVEL_NONE`, `LOG_LEVEL_ALL` and the
named severities; and a call of `log_level_is_enabled` leaves the mask as it
was. -/
theorem C10_mask_stays_within_all (log_levels_enabled : Nat) (cs : List LevelCall)
    (hm : maskWithinAll log_levels_enabled = true)
    (hcs : ∀ c ∈ cs, IsLevelArg c.level) :
    maskWithinAll (runCalls log_levels_enabled cs) = true ∧
    (∀ m level : Nat, LevelCall.run m (LevelCall.is_enabled level) = m) := by
  refine ⟨?_, fun _ _ => rfl⟩
  unfold runCalls
  induction cs generalizing log_levels_enabled with
  | nil => exact hm
  | cons c t ih =>
    rw [List.foldl_cons]
    apply ih
    · exact run_within_all hm (hcs c (List.mem_cons_self c t))
    · intro d hd
      exact hcs d (List.mem_cons_of_mem c hd)

/-- Witness of C10: from mask `LOG_LEVEL_INFO`, enable `WARN | TRACE`, query
`DEBUG`, disable `LOG_LEVEL_ALL`, enable `LOG_LEVEL_NONE`. -/
theorem C10_mask_stays_within_all_witness :
    maskWithinAll LOG_LEVEL_INFO = true ∧
    maskWithinAll (runCalls LOG_LEVEL_INFO
      [LevelCall.enable (orCombination [LOG_LEVEL_WARN, LOG_LEVEL_TRACE]),
       LevelCall.is_enabled (orCombination [LOG_LEVEL_DEBUG]),
       LevelCall.disable (orCombination [LOG_LEVEL_ALL]),
       LevelCall.enable (orCombination [LOG_LEVEL_NONE])]) = true ∧
    (∀ m level : Nat, LevelCall.run m (LevelCall.is_enabled level) = m) :=
  ⟨by decide,
   C10_mask_stays_within_all LOG_LEVEL_INFO _ (by decide) (by
     intro c hc
     simp only [List.mem_cons, List.mem_singleton, List.not_mem_nil, or_false] at hc
     rcases hc with rfl | rfl | rfl | rfl
     · exact ⟨[LOG_LEVEL_WARN, LOG_LEVEL_TRACE], by decide, rfl⟩
     · exact ⟨[LOG_LEVEL_DEBUG], by decide, rfl⟩
     · exact ⟨[LOG_LEVEL_ALL], by decide, rfl⟩
     · exact ⟨[LOG_LEVEL_NONE], by decide, rfl⟩)⟩

/-- C6: `ASSERT` is not gated by the level mask. Whatever the mask, when the
condition is false the message arguments are evaluated,
`report_assertion_failure` is called once with the expression text and the call
site, and `abort` is called next, which terminates the process; when the
condition is true there is no call at all and the message arguments are not
evaluated. The outcome of `ASSERT` does not depend on the mask. -/
theorem C6_ASSERT_not_gated {σ α : Type} (expr : σ → Bool × σ) (expr_str : String)
    (file : String) (line : Nat) (args : σ → α × σ) (w : World σ α) (mask : Nat) :
    ((expr w.vars).1 = false →
      (ASSERT expr expr_str file line args w).calls
          = w.calls ++ [Call.report_assertion_failure expr_str file line
                          (args (expr w.vars).2).1, Call.abort] ∧
      (ASSERT expr expr_str file line args w).calls.countP Call.isReport
          = w.calls.countP Call.isReport + 1 ∧
      (ASSERT expr expr_str file line args w).terminated = true ∧
      (ASSERT expr expr_str file line args w).vars = (args (expr w.vars).2).2) ∧
    ((expr w.vars).1 = true →
      (ASSERT expr expr_str file line args w).calls = w.calls ∧
      (ASSERT expr expr_str file line args w).terminated = w.terminated ∧
      (ASSERT expr expr_str file line args w).vars = (expr w.vars).2) ∧
    (ASSERT expr expr_str file line args w).log_levels_enabled = w.log_levels_enabled ∧
    ASSERT expr expr_str file line args ⟨mask, w.vars, w.calls⟩
      = ⟨mask, (ASSERT expr expr_str file line args w).vars,
          (ASSERT expr expr_str file line args w).calls⟩ := by
  refine ⟨?_, ?_, ?_, ?_⟩
  · intro h
    simp [ASSERT, h, abort, report_assertion_failure, World.terminated,
      List.countP_append, List.countP_cons, Call.isReport, Call.isAbort]
  · intro h
    simp [ASSERT, h, World.terminated]
  · cases h : (expr w.vars).1 <;> simp [ASSERT, h, abort, report_assertion_failure]
  · cases h : (expr w.vars).1 <;> simp [ASSERT, h, abort, report_assertion_failure]

/-- Witness of C6: with every level disabled, `ASSERT(counter > 100, ++counter)`
reports and aborts, and `ASSERT(counter < 100, ++counter)` does nothing. -/
theorem C6_ASSERT_not_gated_witness :
    (ASSERT counterAbove100 "counter > 100" "main.c" 30 incrementCounter silentWorld).calls
      = [Call.report_assertion_failure "counter > 100" "main.c" 30 8, Call.abort] ∧
    (ASSERT counterAbove100 "counter > 100" "main.c" 30 incrementCounter
      silentWorld).terminated = true ∧
    (ASSERT counterBelow100 "counter < 100" "main.c" 31 incrementCounter silentWorld).calls
      = [] ∧
    (ASSERT counterBelow100 "counter < 100" "main.c" 31 incrementCounter silentWorld).vars
      = 7 :=
  ⟨((C6_ASSERT_not_gated counterAbove100 "counter > 100" "main.c" 30 incrementCounter
      silentWorld 0).1 (by decide)).1,
   ((C6_ASSERT_not_gated counterAbove100 "counter > 100" "main.c" 30 incrementCounter
      silentWorld 0).1 (by decide)).2.2.1,
   ((C6_ASSERT_not_gated counterBelow100 "counter < 100" "main.c" 31 incrementCounter
      silentWorld 0).2.1 (by decide)).1,
   ((C6_ASSERT_not_gated counterBelow100 "counter < 100" "main.c" 31 incrementCounter
      silentWorld 0).2.1 (by decide)).2.2⟩

/-- C7: `init_log` called twice in sequence, with any arguments, any outcome of
opening the log file and from any Logger State, returns `LOG_ALREADY_INIT` on the
second call and leaves the Logger State, and so its sink kind, as the first
call left it; `LOG_ALREADY_INIT` is distinct from `LOG_STDOUT`, `LOG_FILE` and
`LOG_ERROR`, as an enumerator and as an integer. -/
theorem C7_second_init_log_rejected (fopen_ok1 fopen_ok2 : Bool)
    (enable_log1 enable_log2 : log_mode) (enable_colors1 enable_colors2 : color_mode)
    (stderr_behavior1 stderr_behavior2 : stderr_mode) (s : LoggerState) :
    (init_log fopen_ok2 enable_log2 enable_colors2 stderr_behavior2
        (init_log fopen_ok1 enable_log1 enable_colors1 stderr_behavior1 s).2).1
      = log_type.LOG_ALREADY_INIT ∧
    (init_log fopen_ok2 enable_log2 enable_colors2 stderr_behavior2
        (init_log fopen_ok1 enable_log1 enable_colors1 stderr_behavior1 s).2).2
      = (init_log fopen_ok1 enable_log1 enable_colors1 stderr_behavior1 s).2 ∧
    (init_log fopen_ok2 enable_log2 enable_colors2 stderr_behavior2
        (init_log fopen_ok1 enable_log1 enable_colors1 stderr_behavior1 s).2).2.sinkKind
      = (init_log fopen_ok1 enable_log1 enable_colors1 stderr_behavior1 s).2.sinkKind ∧
    log_type.LOG_ALREADY_INIT ≠ log_type.LOG_STDOUT ∧
    log_type.LOG_ALREADY_INIT ≠ log_type.LOG_FILE ∧
    log_type.LOG_ALREADY_INIT ≠ log_type.LOG_ERROR ∧
    log_type.LOG_ALREADY_INIT.toNat ≠ log_type.LOG_STDOUT.toNat ∧
    log_type.LOG_ALREADY_INIT.toNat ≠ log_type.LOG_FILE.toNat ∧
    log_type.LOG_ALREADY_INIT.toNat ≠ log_type.LOG_ERROR.toNat := by
  refine ⟨?_, ?_, ?_, by decide, by decide, by decide, by decide, by decide, by decide⟩ <;>
    cases s <;> cases enable_log1 <;> cases fopen_ok1 <;> rfl

end BlackBox
